import Mathlib

/-!
Verification of the AMD-HACK agent backend core.

Shallow embedding of the task-lifecycle engine and the agent routing /
resource-resolution layer of the `agent-backend` Python sources
(`main.py`, `agent_orchestrator.py`).

Python strings are modelled as `List Char` (the sources only manipulate
them at character granularity).  External collaborators (the Meet /
Gmail / Calendar capabilities, the LLM, the connectivity probe) are
modelled as explicit environments of oracle functions; calls that touch
an external capability are additionally recorded in a trace so that
"performs no lookup"-style statements can be expressed.  LLM prompt
*text* is not modelled: prompts never influence control flow in the
source, only the (oracle-provided) responses do.
-/

/-! ## Python string primitives (ASCII fragment used by the sources) -/

/-- The whitespace characters recognised by Python's `str.strip()`
(ASCII fragment). -/
def pyIsSpace (c : Char) : Bool :=
  c = ' ' || c = '\t' || c = '\n' || c = '\x0d' || c = '\x0b' || c = '\x0c'

/-- Python `s.lstrip("/")`. -/
def pyLstripSlash (s : List Char) : List Char := s.dropWhile (· = '/')

/-- Python `s.strip()`: drop whitespace from both ends. -/
def pyStrip (s : List Char) : List Char :=
  ((s.dropWhile pyIsSpace).reverse.dropWhile pyIsSpace).reverse

/-- Python `needle in hay` (substring containment). -/
def strContains : List Char → List Char → Bool
  | [], needle => needle.isEmpty
  | c :: t, needle => needle.isPrefixOf (c :: t) || strContains t needle

/-- Python `s.lower()` (ASCII fragment, matching `Char.toLower`). -/
def pyLower (s : List Char) : List Char := s.map Char.toLower

/-- Python `s.upper()` (ASCII fragment, matching `Char.toUpper`). -/
def pyUpper (s : List Char) : List Char := s.map Char.toUpper

/-- Truthiness of an optional Python string: `None` and `""` are falsy. -/
def pyTruthyStr : Option (List Char) → Bool
  | none => false
  | some s => !s.isEmpty

/-! ## Word-boundary trigger matching (`AgentOrchestrator._matches_triggers`)

The source matches each trigger with the regex `r'\b' + re.escape(trigger)
+ r'\b'` under `re.IGNORECASE`.  We embed the regex semantics directly:
`\w` is `[A-Za-z0-9_]` (ASCII), `\b` holds at a position iff exactly one
of the two neighbouring positions holds a word character (positions
outside the string count as non-word), and `IGNORECASE` compares
characters after case-folding. -/

/-- Regex `\w` (ASCII). -/
def wordChar (c : Char) : Bool :=
  decide ((65 ≤ c.toNat ∧ c.toNat ≤ 90) ∨ (97 ≤ c.toNat ∧ c.toNat ≤ 122) ∨
    (48 ≤ c.toNat ∧ c.toNat ≤ 57) ∨ c.toNat = 95)

/-- Is the character at index `i` of `s` a word character (out of range:
no)? -/
def wordAtPos (s : List Char) (i : Nat) : Bool :=
  match s[i]? with
  | some c => wordChar c
  | none => false

/-- Regex `\b` at position `i` of `s` (a position ranges over `0..s.length`). -/
def boundaryAt (s : List Char) (i : Nat) : Bool :=
  (if i = 0 then false else wordAtPos s (i - 1)) != wordAtPos s i

/-- The characters of `s` starting at index `i` begin with `t`, compared
case-insensitively (`re.IGNORECASE`). -/
def sliceLowerEq (t s : List Char) (i : Nat) : Bool :=
  ((s.drop i).take t.length).map Char.toLower == t.map Char.toLower

/-- Embeds `re.search` of the pattern `\b<t>\b` (with `t` taken literally, as
`re.escape` guarantees) in `s`, case-insensitive. -/
def wwSearch (t s : List Char) : Bool :=
  (List.range (s.length + 1)).any fun i =>
    boundaryAt s i && sliceLowerEq t s i && boundaryAt s (i + t.length)

/-- Embeds `AgentOrchestrator._matches_triggers(text, triggers)`. -/
def matchesTriggers (text : List Char) (triggers : List (List Char)) : Bool :=
  triggers.any fun t => wwSearch t text

/-- Whole-word containment as the specification words it: `s` contains
`t` somewhere, compared case-insensitively, with no word character
immediately before or after the occurrence.  (Reference definition for
the trigger-matching claim; to be compared with `wwSearch`.) -/
def containsWholeWord (t s : List Char) : Prop :=
  ∃ i < s.length + 1, sliceLowerEq t s i = true ∧
    (i = 0 ∨ wordAtPos s (i - 1) = false) ∧
    (i + t.length = s.length ∨ wordAtPos s (i + t.length) = false)

instance (t s : List Char) : Decidable (containsWholeWord t s) := by
  unfold containsWholeWord; infer_instance

/-! ## Agent cards and the router (`AgentOrchestrator`) -/

/-- An agent card as registered by `_register_default_agents` (the
execution function is not part of the record here; dispatch results are
supplied by an oracle where needed). -/
structure AgentCard where
  name : List Char
  description : List Char
  triggers : List (List Char)
  intentId : Option (List Char)
deriving DecidableEq

def calendarCard : AgentCard :=
  { name := "Calendar Agent".toList
    description := "Manages events, meetings, and appointments.".toList
    triggers := ["calendar", "calender", "meeting", "appointment", "event",
                 "remind", "mark"].map String.toList
    intentId := some "calendar".toList }

def gmailCard : AgentCard :=
  { name := "Gmail Agent".toList
    description := "Summarizes emails and searches for specific information in the inbox.".toList
    triggers := ["email", "gmail", "inbox", "unread", "from", "about",
                 "summarize"].map String.toList
    intentId := some "email".toList }

def meetCard : AgentCard :=
  { name := "Meet Agent".toList
    description := "Creates and manages Google Meet video conferences, and retrieves participants and transcripts.".toList
    triggers := ["meet", "meeting link", "video call", "conference",
                 "join meeting", "create meet", "participants", "transcript",
                 "google meet"].map String.toList
    intentId := some "meet".toList }

def classroomCard : AgentCard :=
  { name := "Classroom Agent".toList
    description := "Retrieves Google Classroom courses, assignments, and announcements.".toList
    triggers := ["classroom", "course", "courses", "assignment", "assignments",
                 "homework", "announcement", "announcements", "grades",
                 "class", "classes"].map String.toList
    intentId := some "classroom".toList }

/-- The registry built by `_register_default_agents`, in registration
order. -/
def orchestratorAgents : List AgentCard :=
  [calendarCard, gmailCard, meetCard, classroomCard]

/-- The canned message returned by `plan_and_execute` when no result was
accumulated.  The byte content reproduces the source literal exactly
(the source file contains double-encoded UTF-8). -/
def cannedNoToolMsg : List Char :=
  "\n\n\u201A\u00D1\u03C0\u00D4\u220F\u00E8 This request doesn\u0027t seem to trigger any specialized tools. I\u0027ve noted it down.".toList

/-- The test `if agent.intent_id and agent.intent_id in dismissed_intents`
of `plan_and_execute` (a `None` or empty intent id never suppresses). -/
def intentDismissed (card : AgentCard) (dismissed : List (List Char)) : Bool :=
  match card.intentId with
  | none => false
  | some i => !i.isEmpty && dismissed.contains i

/-- The accumulation loop of `plan_and_execute`: iterate the cards in
order, skip dismissed ones, invoke matching ones, keep truthy results.
`execRes` supplies the value returned by each card's `execute_func`. -/
def routeLoop (execRes : AgentCard → Option (List Char)) (text : List Char)
    (dismissed : List (List Char)) : List AgentCard → List (List Char)
  | [] => []
  | card :: rest =>
    if intentDismissed card dismissed then routeLoop execRes text dismissed rest
    else if matchesTriggers text card.triggers then
      match execRes card with
      | some r =>
        if r.isEmpty then routeLoop execRes text dismissed rest
        else r :: routeLoop execRes text dismissed rest
      | none => routeLoop execRes text dismissed rest
    else routeLoop execRes text dismissed rest

/-- Embeds `AgentOrchestrator.plan_and_execute` over the default registry:
run the loop, return the canned message if nothing accumulated,
otherwise `"".join(results)`. -/
def planAndExecute (execRes : AgentCard → Option (List Char)) (text : List Char)
    (dismissed : List (List Char)) : List Char :=
  let results := routeLoop execRes text dismissed orchestratorAgents
  if results.isEmpty then cannedNoToolMsg else results.flatten

/-- Reference formulation of the (amended) routing contract: the cards
that are not dismissed and whose triggers match, in registration order,
each contributing its truthy result. -/
def routeSpecResults (execRes : AgentCard → Option (List Char)) (text : List Char)
    (dismissed : List (List Char)) : List (List Char) :=
  (orchestratorAgents.filter fun card =>
      !intentDismissed card dismissed && matchesTriggers text card.triggers).filterMap
    fun card =>
      match execRes card with
      | some r => if r.isEmpty then none else some r
      | none => none

/-! ## The resource resolver (`AgentOrchestrator._resolve_conference_record`) -/

/-- Result of `meet_service.get_meeting_space`: a dict that either
carries an `"error"` key or the space fields (we retain the `"name"`
field, the only one the resolver reads). -/
structure SpaceResult where
  error : Option (List Char)
  name : Option (List Char)
deriving DecidableEq

/-- One entry of the `"conferenceRecords"` list returned by
`meet_service.list_conference_records` (the resolver only reads
`record["name"]`). -/
structure ConferenceRecord where
  name : List Char
deriving DecidableEq

/-- The external Meet capability as consumed by the resolver. -/
structure MeetEnv where
  getMeetingSpace : List Char → SpaceResult
  listConferenceRecords : List Char → List ConferenceRecord

/-- A call made to the external Meet capability (trace entry). -/
inductive MeetCall where
  | getSpace (spaceName : List Char)
  | listRecords (spaceName : List Char)
deriving DecidableEq

def confRecTag : List Char := "conferenceRecords/".toList
def spacesTag : List Char := "spaces/".toList

/-- The regex `^[a-z]{3}-[a-z]{4}-[a-z]{3}$` used on the id following
`conferenceRecords/` (the id is a suffix of an already-stripped string,
so the `$`-before-final-newline subtlety of Python cannot arise). -/
def isMeetCodeShape : List Char → Bool
  | [a, b, c, '-', d, e, f, g, '-', h, i, j] =>
    [a, b, c, d, e, f, g, h, i, j].all fun ch => decide ('a' ≤ ch ∧ ch ≤ 'z')
  | _ => false

/-- Final step of the resolver: `list_conference_records` on the space
name; empty list fails, otherwise the first record's name is returned. -/
def listRecordsStep (env : MeetEnv) (spaceName : List Char) (calls : List MeetCall) :
    Option (List Char) × List MeetCall :=
  match env.listConferenceRecords spaceName with
  | [] => (none, calls ++ [MeetCall.listRecords spaceName])
  | r :: _ => (some r.name, calls ++ [MeetCall.listRecords spaceName])

/-- Steps 3–5 of `_resolve_conference_record`: derive the space name (a
`spaces/`-prefixed input is used directly; a bare code is prefixed with
`spaces/` and then fetched via `get_meeting_space`, failing on error and
otherwise adopting the returned `"name"`), then list the records. -/
def resolveSpaceAndRecord (env : MeetEnv) (raw : List Char) :
    Option (List Char) × List MeetCall :=
  if spacesTag.isPrefixOf raw then
    listRecordsStep env raw []
  else
    let spaceName := spacesTag ++ raw
    let res := env.getMeetingSpace spaceName
    if res.error.isSome then (none, [MeetCall.getSpace spaceName])
    else listRecordsStep env (res.name.getD spaceName) [MeetCall.getSpace spaceName]

/-- Embeds `AgentOrchestrator._resolve_conference_record`, returning the
resolved name (or `None`) together with the trace of Meet-capability
calls performed. -/
def resolveConferenceRecord (env : MeetEnv) (raw : List Char) :
    Option (List Char) × List MeetCall :=
  let raw1 := pyStrip (pyLstripSlash raw)
  if confRecTag.isPrefixOf raw1 then
    let recordId := raw1.drop confRecTag.length
    if isMeetCodeShape recordId then resolveSpaceAndRecord env recordId
    else (some raw1, [])
  else
    resolveSpaceAndRecord env raw1

/-! ## The task store and lifecycle engine (`main.py`)

`tasks.json` is modelled as a `List AgentTask` (the JSON array).  The
file-missing / corrupt-file recovery paths of `load_tasks` and
`update_task_status` reduce to the empty store and are not modelled
separately.  `time.sleep`, logging and the `client_time` /
`extracted_time` pass-through parameters (which only feed LLM prompt
text) are elided. -/

structure AgentTask where
  id : List Char
  originalRequest : List Char
  plan : List Char
  status : List Char
  requiresInternet : Bool
deriving DecidableEq

/-- Status-write events (one per effective `status` mutation) and
branch-entry markers (mirroring the `logging.info` calls at the entry of
the calendar and gmail action sections), used to state trace
properties. -/
inductive Ev where
  | setStatus (id status : List Char)
  | calendarAction
  | gmailAction
deriving DecidableEq

def sPlanned : List Char := "planned".toList
def sWaiting : List Char := "waiting_for_internet".toList
def sExecuting : List Char := "executing".toList
def sCompleted : List Char := "completed".toList

/-- Embeds `update_task_status(task_id, status, plan_update=None)`: set
the status of the first task with the given id and, when the
`plan_update` argument is truthy, overwrite its plan with it; do nothing
when no task matches.  Returns the new store and the status writes
performed. -/
def updateTaskStatus : List AgentTask → List Char → List Char → Option (List Char) →
    List AgentTask × List Ev
  | [], _, _, _ => ([], [])
  | t :: rest, taskId, status, planUpdate =>
    if t.id = taskId then
      let newPlan := if pyTruthyStr planUpdate then planUpdate.getD t.plan else t.plan
      ({ t with status := status, plan := newPlan } :: rest,
       [Ev.setStatus taskId status])
    else
      let r := updateTaskStatus rest taskId status planUpdate
      (t :: r.1, r.2)

/-- Embeds `save_task`: replace the first task with the same id, append
if none exists. -/
def saveTask : List AgentTask → AgentTask → List AgentTask
  | [], t => [t]
  | u :: rest, t => if u.id = t.id then t :: rest else u :: saveTask rest t

/-- First task with the given id (`next((t for t in tasks if ...), None)`). -/
def findTask (store : List AgentTask) (taskId : List Char) : Option AgentTask :=
  store.find? fun t => t.id == taskId

/-- Status of the first task with the given id. -/
def getStatus (store : List AgentTask) (taskId : List Char) : Option (List Char) :=
  (findTask store taskId).map AgentTask.status

/-- Result dict of `calendar_service.create_event` as consumed by
`execute_task_logic` (it tests the `"error"` and `"link"` keys and
formats their values). -/
structure CalendarResult where
  link : Option (List Char)
  error : Option (List Char)
deriving DecidableEq

/-- One email dict of `gmail_service.search_emails` /
`fetch_recent_unread_emails` (the fields read by `execute_task_logic`). -/
structure Email where
  id : List Char
  subject : List Char
  sender : List Char
  snippet : List Char
deriving DecidableEq

/-- Content dict of `gmail_service.get_email_content` (fields read by
`execute_task_logic`). -/
structure EmailContent where
  subject : List Char
  sender : List Char
  body : List Char
deriving DecidableEq

/-- Details dict produced by `extract_event_details`: only `summary`
appears in result text; the remaining fields are forwarded to the
calendar capability. -/
structure EventDetails where
  summary : Option (List Char)
  startTime : Option (List Char)
  durationMinutes : Option Nat
deriving DecidableEq

/-- Python `str(...)` rendering of an optional string (`None` prints as
`"None"`), as happens inside the f-strings. -/
def optStr (o : Option (List Char)) : List Char := o.getD "None".toList

/-- The external world of one `execute_task_logic` run: one Boolean per
`check_internet()` call site (probes are never cached), one response per
LLM call site (prompt text never influences control flow, so prompts are
not modelled), and the capability calls.  Capability calls return
`Except Unit _`: `Except.error` models the call raising a Python
exception, which propagates to the function's `try/except` boundary. -/
structure ExecEnv where
  probeGate : Bool
  probeCalendarJIT : Bool
  probeGmail : Bool
  extractDetails : Option EventDetails
  createEvent : Except Unit CalendarResult
  gmailDecision : List Char
  searchRawQuery : List Char
  searchEmails : List Char → Except Unit (List Email)
  getEmailContent : List Char → Except Unit (Option EmailContent)
  readResponse : List Char
  fetchUnread : Except Unit (Option (List Email))
  summaryResponse : List Char

/-- Outcome of one section of the `execute_task_logic` body: a Python
exception propagating towards the outer `try/except` (carrying the store
as of the raise), an early `return False` after parking the task, or
fall-through with the accumulated `result_update`. -/
inductive BranchOut where
  | raised (store : List AgentTask) (trace : List Ev)
  | paused (store : List AgentTask) (trace : List Ev)
  | flow (store : List AgentTask) (trace : List Ev) (resultUpdate : List Char)
deriving DecidableEq

/-- Store component of a section outcome. -/
def BranchOut.store : BranchOut → List AgentTask
  | raised s _ => s
  | paused s _ => s
  | flow s _ _ => s

/-- Trace component of a section outcome. -/
def BranchOut.trace : BranchOut → List Ev
  | raised _ tr => tr
  | paused _ tr => tr
  | flow _ tr _ => tr

/-- The apostrophe character (written via its code point). -/
def apos : Char := Char.ofNat 39

/-- Python `s.split(sep)` for a one-character separator, keeping empty
groups (`"".split(sep) = [""]`). -/
def splitOnChar (c : Char) : List Char → List (List Char)
  | [] => [[]]
  | x :: rest =>
    let r := splitOnChar c rest
    if x = c then [] :: r
    else
      match r with
      | [] => [[x]]
      | g :: gs => (x :: g) :: gs

/-- Python `s.replace(old, new)`: non-overlapping left-to-right
replacement.  (The source never calls it with an empty `old`; that case
is completed as the identity.) -/
def pyReplace (old new : List Char) (s : List Char) : List Char :=
  if hOld : old.isEmpty then s
  else
    match s with
    | [] => []
    | x :: rest =>
      if old.isPrefixOf (x :: rest) then
        new ++ pyReplace old new ((x :: rest).drop old.length)
      else
        x :: pyReplace old new rest
termination_by s.length
decreasing_by
  · simp only [List.length_drop, List.length_cons]
    have : ¬ old.length = 0 := by
      simpa [List.isEmpty_iff, List.length_eq_zero] using hOld
    omega
  · simp

/-- Python `s.count(sub)`: non-overlapping occurrence count.  (The
source never calls it with an empty `sub`; that case is completed per
Python as `len(s) + 1`.) -/
def pyCountSub (sub : List Char) (s : List Char) : Nat :=
  if hSub : sub.isEmpty then s.length + 1
  else
    match s with
    | [] => 0
    | x :: rest =>
      if sub.isPrefixOf (x :: rest) then
        1 + pyCountSub sub ((x :: rest).drop sub.length)
      else
        pyCountSub sub rest
termination_by s.length
decreasing_by
  · simp only [List.length_drop, List.length_cons]
    have : ¬ sub.length = 0 := by
      simpa [List.isEmpty_iff, List.length_eq_zero] using hSub
    omega
  · simp

/-- Helper for `pySplitWs` (accumulates the current word reversed). -/
def pySplitWsAux : List Char → List Char → List (List Char)
  | [], cur => if cur.isEmpty then [] else [cur.reverse]
  | c :: rest, cur =>
    if pyIsSpace c then
      if cur.isEmpty then pySplitWsAux rest []
      else cur.reverse :: pySplitWsAux rest []
    else pySplitWsAux rest (c :: cur)

/-- Python `s.split()` (split on whitespace runs, dropping empties). -/
def pySplitWs (s : List Char) : List (List Char) := pySplitWsAux s []

/-- Python `sep.join(parts)`. -/
def joinWith (sep : List Char) : List (List Char) → List Char
  | [] => []
  | [x] => x
  | x :: y :: rest => x ++ sep ++ joinWith sep (y :: rest)

/-- Python `any(kw in hay for kw in kws)`. -/
def anyContains (hay : List Char) (kws : List (List Char)) : Bool :=
  kws.any fun k => strContains hay k

/-- The calendar trigger list of `execute_task_logic` (matched by plain
substring containment on the lowered text). -/
def mainCalendarTriggers : List (List Char) :=
  ["calendar", "calender", "meeting", "appointment", "event", "remind",
   "mark"].map String.toList

def summaryKws : List (List Char) :=
  ["unread", "inbox", "summary", "summarize"].map String.toList

def searchKws : List (List Char) :=
  ["from", "about", "for", "regarding", "subject", "read", "latest", "find",
   "check", "tell me more", "timing", "when"].map String.toList

def readIntentKws : List (List Char) :=
  ["read", "latest", "content", "what is", "timing", "session", "when",
   "tell me", "summary", "summarize"].map String.toList

def networkKws : List (List Char) :=
  ["network", "socket", "connection", "timeout", "unable to find the server",
   "getaddrinfo", "client_connector_error", "server disconnected"].map String.toList

def genericQueries : List (List Char) :=
  ["", "summary", "email", "gmail", "inbox", "emails", "my email",
   "my emails"].map String.toList

def fallbackOps : List (List Char) :=
  ["from", "about", "subject", "for"].map String.toList
/-- Literal from `main.py`: event-created text up to the summary -/
def txtEvCreated1 : List Char :=
  "\n\n\u00E2\u0153\u2026 Event Created: **".toList

/-- Literal from `main.py`: event-created text between summary and link -/
def txtEvCreated2 : List Char :=
  "**\n[View on Google Calendar](".toList

/-- Literal from `main.py`: event-creation-failed text -/
def txtEvFailed : List Char :=
  "\n\n\u00E2\u0152 Event Creation Failed: ".toList

/-- Literal from `main.py`: could-not-understand text -/
def txtNoDetails : List Char :=
  "\n\n\u00E2\u0152 Could not understand event details.".toList

/-- Literal from `main.py`: email-found text up to sender -/
def txtEmailFound1 : List Char :=
  "\n\n\u00F0\u0178\u201C\u00A7 **Email Found**\n**From:** ".toList

/-- Literal from `main.py`: email-found text between sender and subject -/
def txtEmailFound2 : List Char :=
  "\n**Subject:** ".toList

/-- Literal from `main.py`: email-found text between subject and the LLM response -/
def txtEmailFound3 : List Char :=
  "\n\n".toList

/-- Literal from `main.py`: email-found text between response and link -/
def txtEmailFound4 : List Char :=
  "\n\n[Open in Gmail](".toList

/-- Literal from `main.py`: could-not-retrieve-content text -/
def txtNoContent : List Char :=
  "\n\n\u00E2\u0152 Could not retrieve email content.".toList

/-- Literal from `main.py`: search-results text up to the query -/
def txtSearchRes1 : List Char :=
  "\n\n\u00F0\u0178\u201D **Search Results for \u0027".toList

/-- Literal from `main.py`: search-results text between query and list -/
def txtSearchRes2 : List Char :=
  "\u0027:**\n".toList

/-- Literal from `main.py`: search-results trailing tip text -/
def txtSearchRes3 : List Char :=
  "\n\n*Tip: Ask me to \u0027read the one about...\u0027*".toList

/-- Literal from `main.py`: no-emails text up to the query -/
def txtNoEmails1 : List Char :=
  "\n\n\u00F0\u0178\u201D No emails found for: \u0060".toList

/-- Literal from `main.py`: no-emails trailing text -/
def txtNoEmails2 : List Char :=
  "\u0060".toList

/-- Literal from `main.py`: gmail-access-required text -/
def txtGmailAccess : List Char :=
  "\n\n\u00E2\u0161\u00A0\u00EF\u00B8 **Gmail Access Required**".toList

/-- Literal from `main.py`: no-new-unread text -/
def txtNoUnread : List Char :=
  "\n\n\u00E2\u0153\u2026 You have no new unread emails.".toList

/-- Literal from `main.py`: inbox-summary heading text -/
def txtInbox1 : List Char :=
  "\n\n\u00F0\u0178\u201C\u00A7 **Inbox Summary**\n".toList

/-- Literal from `main.py`: search list item text before the subject -/
def txtBullet1 : List Char :=
  "- **".toList

/-- Literal from `main.py`: search list item text between subject and sender -/
def txtBullet2 : List Char :=
  "** from ".toList

/-- Literal from `main.py`: gmail permalink base -/
def gmailLinkBase : List Char :=
  "https://mail.google.com/mail/u/0/#inbox/".toList

/-- Closing parenthesis ending the markdown links. -/
def txtClose : List Char := ")".toList

/-- The calendar action section of `execute_task_logic` (lines 350–403;
entered only when a calendar trigger matched).  Mirrors: extract details
(else complain), just-in-time connectivity check (parking the task and
flipping `requires_internet` when the task is found in the store),
create the event, park on a network-looking error, and otherwise format
the result text. -/
def calendarBranch (env : ExecEnv) (store : List AgentTask) (taskId : List Char) :
    BranchOut :=
  match env.extractDetails with
  | some details =>
    if !env.probeCalendarJIT then
      match findTask store taskId with
      | some t0 =>
        let t1 := { t0 with requiresInternet := true, status := sWaiting }
        BranchOut.paused (saveTask store t1) [Ev.calendarAction, Ev.setStatus taskId sWaiting]
      | none =>
        let r := updateTaskStatus store taskId sWaiting none
        BranchOut.paused r.1 (Ev.calendarAction :: r.2)
    else
      match env.createEvent with
      | Except.error _ => BranchOut.raised store [Ev.calendarAction]
      | Except.ok cal =>
        let errMsg := pyLower (cal.error.getD [])
        if cal.error.isSome && anyContains errMsg networkKws then
          let r := updateTaskStatus store taskId sWaiting none
          BranchOut.paused r.1 (Ev.calendarAction :: r.2)
        else
          match cal.link with
          | some link =>
            BranchOut.flow store [Ev.calendarAction]
              (txtEvCreated1 ++ optStr details.summary ++ txtEvCreated2 ++ link ++ txtClose)
          | none =>
            BranchOut.flow store [Ev.calendarAction] (txtEvFailed ++ optStr cal.error)
  | none => BranchOut.flow store [Ev.calendarAction] txtNoDetails

/-- Outcome of the SPECIFIC-search part of the gmail section: a raise,
or fall-through with the (possibly rewritten) decision and the extended
`result_update`. -/
inductive SpecOut where
  | raisedS
  | doneS (decision : List Char) (resultUpdate : List Char)
deriving DecidableEq

/-- The SPECIFIC-search part of the gmail section of
`execute_task_logic` (lines 448–532; entered only when
`should_run_specific`).  Mirrors the query munging, the too-generic
guard (which rewrites the decision to GENERAL), the primary and softer
fallback searches, and the read/list/no-result outcomes. -/
def gmailSpecific (env : ExecEnv) (t : List Char) (decision : List Char)
    (resultUpdate : List Char) : SpecOut :=
  let rawQuery := pyStrip env.searchRawQuery
  let sq0 := pyReplace [','] [' ']
    (pyReplace [apos] [] (pyReplace ['"'] [] ((splitOnChar '\n' rawQuery).getLastD [])))
  let sq1 :=
    if strContains sq0 [':'] &&
        decide ((pySplitWs ((splitOnChar ':' sq0).headD [])).length > 1) then
      pyStrip ((splitOnChar ':' sq0).getLastD [])
    else sq0
  let searchQuery :=
    if pyCountSub "from:".toList sq1 > 1 then pyReplace "from:".toList [] sq1 else sq1
  let cleanQ := pyStrip (pyLower searchQuery)
  if genericQueries.contains cleanQ then
    SpecOut.doneS "GENERAL".toList resultUpdate
  else
    match env.searchEmails searchQuery with
    | Except.error _ => SpecOut.raisedS
    | Except.ok emails0 =>
      let afterFallback : Except Unit (List Email) :=
        if emails0.isEmpty then
          let params := pySplitWs searchQuery
          let fb0 := params.take 3
          let fb1 :=
            if !fb0.isEmpty && fallbackOps.contains (pyLower (fb0.getLastD [])) then
              fb0.dropLast
            else fb0
          env.searchEmails (joinWith [' '] fb1)
        else Except.ok emails0
      match afterFallback with
      | Except.error _ => SpecOut.raisedS
      | Except.ok emails =>
        if !emails.isEmpty then
          let readIntent := anyContains t readIntentKws
          if emails.length = 1 || readIntent then
            match emails with
            | [] => SpecOut.doneS decision resultUpdate
            | e :: _ =>
              match env.getEmailContent e.id with
              | Except.error _ => SpecOut.raisedS
              | Except.ok none => SpecOut.doneS decision (resultUpdate ++ txtNoContent)
              | Except.ok (some content) =>
                let emailLink := gmailLinkBase ++ e.id
                SpecOut.doneS decision
                  (resultUpdate ++ txtEmailFound1 ++ content.sender ++ txtEmailFound2 ++
                   content.subject ++ txtEmailFound3 ++ env.readResponse ++ txtEmailFound4 ++
                   emailLink ++ txtClose)
          else
            let emailList := joinWith ['\n']
              (emails.map fun e => txtBullet1 ++ e.subject ++ txtBullet2 ++ e.sender)
            SpecOut.doneS decision
              (resultUpdate ++ txtSearchRes1 ++ searchQuery ++ txtSearchRes2 ++ emailList ++
               txtSearchRes3)
        else
          if strContains decision "SPECIFIC".toList then
            SpecOut.doneS decision (resultUpdate ++ txtNoEmails1 ++ searchQuery ++ txtNoEmails2)
          else SpecOut.doneS decision resultUpdate

/-- The GENERAL-summary part of the gmail section (lines 536–552). -/
def gmailGeneral (env : ExecEnv) (resultUpdate : List Char) : Except Unit (List Char) :=
  match env.fetchUnread with
  | Except.error _ => Except.error ()
  | Except.ok none => Except.ok (resultUpdate ++ txtGmailAccess)
  | Except.ok (some []) => Except.ok (resultUpdate ++ txtNoUnread)
  | Except.ok (some (_ :: _)) => Except.ok (resultUpdate ++ txtInbox1 ++ env.summaryResponse)

/-- The gmail action section of `execute_task_logic` (lines 418–552;
entered only when `has_email_kw or is_search_req`): connectivity gate
that parks the task, the SPECIFIC/GENERAL LLM decision, the
specific-search part, then the general summary when the (possibly
rewritten) decision says GENERAL or a summary was requested and nothing
was produced yet. -/
def gmailBranch (env : ExecEnv) (store : List AgentTask) (taskId t : List Char)
    (isSummaryReq isSearchReq : Bool) (resultUpdate : List Char) : BranchOut :=
  if !env.probeGmail then
    let r := updateTaskStatus store taskId sWaiting none
    BranchOut.paused r.1 (Ev.gmailAction :: r.2)
  else
    let decision := pyUpper (pyStrip env.gmailDecision)
    let shouldRunSpecific :=
      strContains decision "SPECIFIC".toList || (isSearchReq && !isSummaryReq)
    let afterSpec :=
      if shouldRunSpecific then gmailSpecific env t decision resultUpdate
      else SpecOut.doneS decision resultUpdate
    match afterSpec with
    | SpecOut.raisedS => BranchOut.raised store [Ev.gmailAction]
    | SpecOut.doneS decision1 ru1 =>
      if strContains decision1 "GENERAL".toList || (isSummaryReq && ru1.isEmpty) then
        match gmailGeneral env ru1 with
        | Except.error _ => BranchOut.raised store [Ev.gmailAction]
        | Except.ok ru2 => BranchOut.flow store [Ev.gmailAction] ru2
      else BranchOut.flow store [Ev.gmailAction] ru1

/-- Result of one `execute_task_logic` run: final store, trace, returned
Boolean, and whether the outer `except` branch caught a raise. -/
structure ExecOut where
  store : List AgentTask
  trace : List Ev
  retval : Bool
  caught : Bool
deriving DecidableEq

/-- Embeds `execute_task_logic(task_id, task_text, client_time,
requires_internet, extracted_time)`.  The body runs under
`try/except`: a raise from any capability call is caught at this
boundary and turns into `return False` with the store as of the raise. -/
def executeTaskLogic (env : ExecEnv) (store : List AgentTask) (taskId taskText : List Char)
    (requiresInternet : Bool) : ExecOut :=
  if requiresInternet && !env.probeGate then
    let r := updateTaskStatus store taskId sWaiting none
    ⟨r.1, r.2, false, false⟩
  else
    let r1 := updateTaskStatus store taskId sExecuting none
    let t := pyLower taskText
    let calOut :=
      if anyContains t mainCalendarTriggers then calendarBranch env r1.1 taskId
      else BranchOut.flow r1.1 [] []
    match calOut with
    | BranchOut.raised st tr => ⟨st, r1.2 ++ tr, false, true⟩
    | BranchOut.paused st tr => ⟨st, r1.2 ++ tr, false, false⟩
    | BranchOut.flow store2 tr2 resultUpdate =>
      let isSummaryReq := anyContains t summaryKws
      let isSearchReq := anyContains t searchKws
      let hasEmailKw := strContains t "email".toList || strContains t "gmail".toList ||
        strContains t "session".toList
      let gmOut :=
        if hasEmailKw || isSearchReq then
          gmailBranch env store2 taskId t isSummaryReq isSearchReq resultUpdate
        else BranchOut.flow store2 [] resultUpdate
      match gmOut with
      | BranchOut.raised st tr => ⟨st, r1.2 ++ tr2 ++ tr, false, true⟩
      | BranchOut.paused st tr => ⟨st, r1.2 ++ tr2 ++ tr, false, false⟩
      | BranchOut.flow store3 tr3 ru =>
        let store4 :=
          match findTask store3 taskId with
          | some t0 => saveTask store3 { t0 with plan := t0.plan ++ ru }
          | none => store3
        let r2 := updateTaskStatus store4 taskId sCompleted none
        ⟨r2.1, r1.2 ++ tr2 ++ tr3 ++ r2.2, true, false⟩

/-- Embeds `background_task_simulation`: park the task when it requires
internet and the submission-time probe reports offline, otherwise run
`execute_task_logic` immediately.  (`time.sleep(2)` is elided.) -/
def backgroundTaskSimulation (probeSubmit : Bool) (env : ExecEnv) (store : List AgentTask)
    (taskId : List Char) (requiresInternet : Bool) (taskText : List Char) : ExecOut :=
  if requiresInternet && !probeSubmit then
    let r := updateTaskStatus store taskId sWaiting none
    ⟨r.1, r.2, false, false⟩
  else
    executeTaskLogic env store taskId taskText requiresInternet

/-! ## Concrete environments and tasks used by closed statements -/

/-- A Meet capability whose space lookup always fails and that lists no
conference records. -/
def meetEnvA : MeetEnv :=
  { getMeetingSpace := fun _ => ⟨some "Requested entity was not found".toList, none⟩
    listConferenceRecords := fun _ => [] }

/-- A Meet capability whose space lookup always fails but that reports a
conference record for every space. -/
def meetEnvB : MeetEnv :=
  { getMeetingSpace := fun _ => ⟨some "Requested entity was not found".toList, none⟩
    listConferenceRecords := fun _ => [⟨"conferenceRecords/r1".toList⟩] }

/-- A Meet capability with records `[R1, R2]` (in that order) under
`spaces/withrecs` and no records elsewhere. -/
def meetEnvC5 : MeetEnv :=
  { getMeetingSpace := fun _ => ⟨none, some "spaces/withrecs".toList⟩
    listConferenceRecords := fun n =>
      if n = "spaces/withrecs".toList then
        [⟨"conferenceRecords/R1".toList⟩, ⟨"conferenceRecords/R2".toList⟩]
      else [] }

/-- An execution environment that is online except at the gmail
connectivity gate, with inert capabilities. -/
def execEnvOffGmail : ExecEnv :=
  { probeGate := true, probeCalendarJIT := true, probeGmail := false
    extractDetails := none, createEvent := Except.ok ⟨none, none⟩
    gmailDecision := [], searchRawQuery := []
    searchEmails := fun _ => Except.ok [], getEmailContent := fun _ => Except.ok none
    readResponse := [], fetchUnread := Except.ok (some []), summaryResponse := [] }

/-- An execution environment in which the calendar capability raises an
exception. -/
def execEnvRaise : ExecEnv :=
  { execEnvOffGmail with
    probeGmail := true
    extractDetails := some ⟨some "X".toList, none, none⟩
    createEvent := Except.error () }

/-- A task that does not require internet whose text triggers the gmail
search path (it contains "from" and "email"). -/
def taskGmailOffline : AgentTask :=
  { id := "t1".toList, originalRequest := "check email from Bob".toList
    plan := "plan".toList, status := sPlanned, requiresInternet := false }

/-- A plain stored task. -/
def taskPlain : AgentTask :=
  { id := "a".toList, originalRequest := [], plan := "hello".toList
    status := sExecuting, requiresInternet := false }

/-- A task requiring internet, as created by the intake endpoint. -/
def taskNeedsNet : AgentTask :=
  { id := "n1".toList, originalRequest := "latest news".toList
    plan := [], status := sPlanned, requiresInternet := true }

/-! ## Supporting lemmas -/

theorem char_le_toNat (a b : Char) : (a ≤ b) ↔ a.toNat ≤ b.toNat := by
  rw [Char.le_def]; exact Iff.rfl

theorem toLower_toNat (c : Char) :
    (Char.toLower c).toNat =
      if c.toNat ≥ 65 ∧ c.toNat ≤ 90 then c.toNat + 32 else c.toNat := by
  by_cases h : c.toNat ≥ 65 ∧ c.toNat ≤ 90
  · have hv : Nat.isValidChar (c.toNat + 32) := by left; omega
    rw [if_pos h]
    simp only [Char.toLower, h, and_true, if_true, ge_iff_le]
    unfold Char.ofNat
    rw [dif_pos hv]
    rfl
  · rw [if_neg h]
    simp [Char.toLower, h]

theorem wordChar_of_toLower_eq {a b : Char} (h : Char.toLower a = Char.toLower b) :
    wordChar a = wordChar b := by
  have h' : (Char.toLower a).toNat = (Char.toLower b).toNat := congrArg Char.toNat h
  rw [toLower_toNat, toLower_toNat] at h'
  unfold wordChar
  rw [decide_eq_decide]
  split_ifs at h' <;> omega

theorem sliceLowerEq_map {t s : List Char} {i : Nat} (hs : sliceLowerEq t s i = true) :
    ((s.drop i).take t.length).map Char.toLower = t.map Char.toLower := by
  simpa [sliceLowerEq] using hs

theorem sliceLowerEq_le {t s : List Char} {i : Nat} (h0 : t ≠ [])
    (hs : sliceLowerEq t s i = true) : i + t.length ≤ s.length := by
  have hlen := congrArg List.length (sliceLowerEq_map hs)
  simp [List.length_take, List.length_drop] at hlen
  have : 0 < t.length := List.length_pos.mpr h0
  omega

theorem slice_point {t s : List Char} {i j : Nat} (hj : j < t.length)
    (hs : sliceLowerEq t s i = true) :
    ∃ c, s[i + j]? = some c ∧
      (t[j]?.map (fun x => Char.toLower c = Char.toLower x)).getD False := by
  have hmap := sliceLowerEq_map hs
  have h1 := congrArg (fun l => l[j]?) hmap
  simp only [List.getElem?_map] at h1
  rw [List.getElem?_take_of_lt hj, List.getElem?_drop] at h1
  have ht : t[j]? = some (t.get ⟨j, hj⟩) := by
    rw [List.getElem?_eq_getElem hj]; rfl
  rw [ht] at h1
  cases hx : s[i + j]? with
  | none => rw [hx] at h1; simp at h1
  | some c =>
    rw [hx] at h1
    simp only [Option.map_some'] at h1
    refine ⟨c, rfl, ?_⟩
    rw [ht]
    simpa using h1

theorem wordAtPos_of_le {s : List Char} {q : Nat} (hq : s.length ≤ q) :
    wordAtPos s q = false := by
  unfold wordAtPos
  rw [List.getElem?_eq_none hq]

theorem boundary_left_iff {s : List Char} {i : Nat} (hw : wordAtPos s i = true) :
    boundaryAt s i = true ↔ (i = 0 ∨ wordAtPos s (i - 1) = false) := by
  unfold boundaryAt
  rw [hw]
  by_cases h0 : i = 0
  · simp [h0]
  · simp only [h0, if_false, false_or]
    cases hx : wordAtPos s (i - 1) <;> simp

theorem boundary_right_iff {s : List Char} {p : Nat} (hp : p ≠ 0)
    (hw : wordAtPos s (p - 1) = true) :
    boundaryAt s p = true ↔ (p = s.length ∨ wordAtPos s p = false) := by
  unfold boundaryAt
  rw [if_neg hp, hw]
  constructor
  · intro h
    right
    cases hx : wordAtPos s p
    · rfl
    · rw [hx] at h; simp at h
  · intro h
    have hx : wordAtPos s p = false := by
      rcases h with h | h
      · exact h ▸ wordAtPos_of_le (Nat.le_refl _)
      · exact h
    rw [hx]
    simp

theorem wwSearch_iff_whole (t s : List Char) (h0 : t ≠ [])
    (hh : wordChar (t.headD ' ') = true) (hl : wordChar (t.getLastD ' ') = true) :
    wwSearch t s = true ↔ containsWholeWord t s := by
  have hpos : 0 < t.length := List.length_pos.mpr h0
  have hlast_idx : t.length - 1 < t.length := by omega
  have hh' : wordChar (t.get ⟨0, hpos⟩) = true := by
    obtain ⟨c, t', rfl⟩ : ∃ c t', t = c :: t' := by
      cases t with
      | nil => exact absurd rfl h0
      | cons c t' => exact ⟨c, t', rfl⟩
    exact hh
  have hl' : wordChar (t.get ⟨t.length - 1, hlast_idx⟩) = true := by
    have ht_last : t[t.length - 1]? = some (t.get ⟨t.length - 1, hlast_idx⟩) := by
      rw [List.getElem?_eq_getElem hlast_idx]; rfl
    rw [List.getLastD_eq_getLast?, List.getLast?_eq_getElem?, ht_last] at hl
    exact hl
  -- the two word-character facts at the ends of any case-insensitive occurrence
  have hword : ∀ i : Nat, sliceLowerEq t s i = true →
      wordAtPos s i = true ∧ wordAtPos s (i + t.length - 1) = true := by
    intro i hsl
    constructor
    · obtain ⟨c0, hc0, hrel⟩ := slice_point hpos hsl
      rw [Nat.add_zero] at hc0
      have ht0 : t[0]? = some (t.get ⟨0, hpos⟩) := by
        rw [List.getElem?_eq_getElem hpos]; rfl
      rw [ht0] at hrel
      simp only [Option.map_some', Option.getD_some] at hrel
      unfold wordAtPos
      rw [hc0]
      show wordChar c0 = true
      rw [wordChar_of_toLower_eq hrel]
      exact hh'
    · obtain ⟨c1, hc1, hrel⟩ := slice_point hlast_idx hsl
      have harith : i + (t.length - 1) = i + t.length - 1 := by omega
      rw [harith] at hc1
      have ht1 : t[t.length - 1]? = some (t.get ⟨t.length - 1, hlast_idx⟩) := by
        rw [List.getElem?_eq_getElem hlast_idx]; rfl
      rw [ht1] at hrel
      simp only [Option.map_some', Option.getD_some] at hrel
      unfold wordAtPos
      rw [hc1]
      show wordChar c1 = true
      rw [wordChar_of_toLower_eq hrel]
      exact hl'
  unfold wwSearch containsWholeWord
  rw [List.any_eq_true]
  constructor
  · rintro ⟨i, hir, hf⟩
    rw [List.mem_range] at hir
    simp only [Bool.and_eq_true] at hf
    obtain ⟨⟨hb1, hsl⟩, hb2⟩ := hf
    obtain ⟨hw0, hw1⟩ := hword i hsl
    have hple : i + t.length ≠ 0 := by omega
    refine ⟨i, hir, hsl, ?_, ?_⟩
    · exact (boundary_left_iff hw0).mp hb1
    · exact (boundary_right_iff hple (by simpa using hw1)).mp hb2
  · rintro ⟨i, hir, hsl, hpre, hpost⟩
    obtain ⟨hw0, hw1⟩ := hword i hsl
    have hple : i + t.length ≠ 0 := by omega
    refine ⟨i, List.mem_range.mpr hir, ?_⟩
    simp only [Bool.and_eq_true]
    exact ⟨⟨(boundary_left_iff hw0).mpr hpre, hsl⟩,
      (boundary_right_iff hple (by simpa using hw1)).mpr hpost⟩

theorem az_char_facts {x : Char} (h1 : 'a' ≤ x) (h2 : x ≤ 'z') :
    pyIsSpace x = false ∧ (x = '/') = False ∧ ('/' = x) = False := by
  rw [char_le_toNat] at h1 h2
  have h1' : 97 ≤ x.toNat := h1
  have h2' : x.toNat ≤ 122 := h2
  have hne : ∀ c : Char, c.toNat < 97 → x ≠ c := by
    intro c hc heq
    rw [heq] at h1'
    omega
  refine ⟨?_, ?_, ?_⟩
  · simp [pyIsSpace, hne ' ' (by decide), hne '\t' (by decide), hne '\n' (by decide),
      hne '\x0d' (by decide), hne '\x0b' (by decide), hne '\x0c' (by decide)]
  · simp [hne '/' (by decide)]
  · simp only [eq_iff_iff, iff_false]
    intro heq
    exact (hne '/' (by decide)) heq.symm

theorem meetCodeShape_clean (id : List Char) (hc : isMeetCodeShape id = true) :
    pyLstripSlash id = id ∧ pyStrip id = id ∧
    confRecTag.isPrefixOf id = false ∧ spacesTag.isPrefixOf id = false := by
  unfold isMeetCodeShape at hc
  split at hc
  case h_2 => simp at hc
  case h_1 a b c d e f g x y z =>
    simp only [List.all_cons, List.all_nil, Bool.and_eq_true, decide_eq_true_eq,
      and_true] at hc
    obtain ⟨ha, hb, hcc, hd, he, hf, hg, hx, hy, hz⟩ := hc
    have fa := az_char_facts ha.1 ha.2
    have fz := az_char_facts hz.1 hz.2
    refine ⟨?_, ?_, ?_, ?_⟩
    · unfold pyLstripSlash
      rw [List.dropWhile_cons]
      simp [fa.2.1]
    · unfold pyStrip
      rw [List.dropWhile_cons, if_neg (by simp [fa.1])]
      have hrev : ([a, b, c, '-', d, e, f, g, '-', x, y, z] : List Char).reverse =
          [z, y, x, '-', g, f, e, d, '-', c, b, a] := by rfl
      rw [hrev, List.dropWhile_cons, if_neg (by simp [fz.1])]
      rfl
    · rw [Bool.eq_false_iff]
      intro hp
      rw [List.isPrefixOf_iff_prefix] at hp
      obtain ⟨tail, htl⟩ := hp
      have hlen := congrArg List.length htl
      have hct : confRecTag.length = 18 := by rfl
      simp only [List.length_append, hct, List.length_cons, List.length_nil] at hlen
      omega
    · rw [Bool.eq_false_iff]
      intro hp
      rw [List.isPrefixOf_iff_prefix] at hp
      obtain ⟨tail, htl⟩ := hp
      have h3 : (spacesTag ++ tail)[3]? = some '-' := by rw [htl]; rfl
      rw [List.getElem?_append_left (show 3 < spacesTag.length by decide)] at h3
      have hsp : spacesTag[3]? = some 'c' := rfl
      rw [hsp] at h3
      simp at h3

theorem confRecTag_isPrefixOf_append (id : List Char) :
    confRecTag.isPrefixOf (confRecTag ++ id) = true := by
  rw [List.isPrefixOf_iff_prefix]
  exact ⟨id, rfl⟩

theorem spaces_not_confRec {raw : List Char} (hsp : spacesTag.isPrefixOf raw = true) :
    confRecTag.isPrefixOf raw = false := by
  rw [List.isPrefixOf_iff_prefix] at hsp
  obtain ⟨rest, hrest⟩ := hsp
  rw [Bool.eq_false_iff]
  intro hp
  rw [List.isPrefixOf_iff_prefix] at hp
  obtain ⟨rest2, hrest2⟩ := hp
  have h0 : raw[0]? = some 's' := by
    rw [← hrest, List.getElem?_append_left (show 0 < spacesTag.length by decide)]
    rfl
  rw [← hrest2, List.getElem?_append_left (show 0 < confRecTag.length by decide)] at h0
  have hc : confRecTag[0]? = some 'c' := rfl
  rw [hc] at h0
  simp at h0

/-! ## Claim theorems -/

/-- Claim C1 counterexample: the raw input `conferenceRecords/abc ` (the id
`abc ` does not have the meeting-code shape) is *not* returned
unchanged — the resolver first strips surrounding whitespace, so it
returns `conferenceRecords/abc` (it does perform no capability call). -/
theorem C1_counterexample :
    resolveConferenceRecord meetEnvA "conferenceRecords/abc ".toList =
      (some "conferenceRecords/abc".toList, []) ∧
    "conferenceRecords/abc".toList ≠ "conferenceRecords/abc ".toList := by
  exact ⟨by decide, by decide⟩

/-- Claim C1 (amended): for raw inputs of the form `conferenceRecords/<id>`
that are unchanged by the resolver's step-1 stripping (no leading `/`,
no surrounding whitespace): if `<id>` has the meeting-code shape the
input resolves exactly as `<id>` alone does, and otherwise the input is
returned as-is with no space lookup and no record listing. -/
theorem C1_resolver_misclassified (env : MeetEnv) (id : List Char)
    (hfix : pyStrip (pyLstripSlash (confRecTag ++ id)) = confRecTag ++ id) :
    (isMeetCodeShape id = true →
      resolveConferenceRecord env (confRecTag ++ id) = resolveConferenceRecord env id) ∧
    (isMeetCodeShape id = false →
      resolveConferenceRecord env (confRecTag ++ id) = (some (confRecTag ++ id), [])) := by
  have hpre := confRecTag_isPrefixOf_append id
  have hdrop : (confRecTag ++ id).drop confRecTag.length = id := List.drop_left _ _
  constructor
  · intro hc
    obtain ⟨h1, h2, h3, _h4⟩ := meetCodeShape_clean id hc
    simp only [resolveConferenceRecord, hfix, hpre, if_true, hdrop, hc, h1, h2, h3,
      Bool.false_eq_true, if_false]
  · intro hc
    simp only [resolveConferenceRecord, hfix, hpre, if_true, hdrop, hc,
      Bool.false_eq_true, if_false]

/-- Claim C1 witness: instantiation of `C1_resolver_misclassified` at the
code-shaped id `abc-defg-hij` and the opaque id `aZ9x7Qh2`. -/
theorem C1_witness :
    resolveConferenceRecord meetEnvA ("conferenceRecords/abc-defg-hij".toList) =
      resolveConferenceRecord meetEnvA "abc-defg-hij".toList ∧
    resolveConferenceRecord meetEnvA ("conferenceRecords/aZ9x7Qh2".toList) =
      (some "conferenceRecords/aZ9x7Qh2".toList, []) := by
  constructor
  · exact (C1_resolver_misclassified meetEnvA "abc-defg-hij".toList (by decide)).1 (by decide)
  · exact (C1_resolver_misclassified meetEnvA "aZ9x7Qh2".toList (by decide)).2 (by decide)

/-- Claim C4 counterexample: on the `spaces/`-prefixed input `spaces/abc`,
with a capability whose space lookup fails on *every* name, resolution
nevertheless succeeds and the trace shows that no space fetch was
performed — the fetch-then-fail step does not apply to
`spaces/`-prefixed inputs. -/
theorem C4_counterexample :
    (meetEnvB.getMeetingSpace "spaces/abc".toList).error.isSome = true ∧
    resolveConferenceRecord meetEnvB "spaces/abc".toList =
      (some "conferenceRecords/r1".toList,
       [MeetCall.listRecords "spaces/abc".toList]) := by
  exact ⟨by decide, by decide⟩

/-- Claim C4 (amended): the space-name derivation is as claimed, but the
fetch-then-fail step applies only to bare meeting codes: a bare code is
prefixed with `spaces/`, fetched, and resolution fails when that lookup
errors; a `spaces/`-prefixed input skips the fetch entirely and proceeds
directly to the record listing with the input as the space name. -/
theorem C4_space_fetch (env : MeetEnv) :
    (∀ code : List Char, pyStrip (pyLstripSlash code) = code →
      confRecTag.isPrefixOf code = false → spacesTag.isPrefixOf code = false →
      (env.getMeetingSpace (spacesTag ++ code)).error.isSome = true →
      resolveConferenceRecord env code =
        (none, [MeetCall.getSpace (spacesTag ++ code)])) ∧
    (∀ raw : List Char, pyStrip (pyLstripSlash raw) = raw →
      spacesTag.isPrefixOf raw = true →
      resolveConferenceRecord env raw =
        ((match env.listConferenceRecords raw with
          | [] => none
          | r :: _ => some r.name), [MeetCall.listRecords raw])) := by
  constructor
  · intro code hfix hnc hns herr
    simp only [resolveConferenceRecord, hfix, hnc, Bool.false_eq_true, if_false,
      resolveSpaceAndRecord, hns, herr, if_true]
  · intro raw hfix hsp
    have hnc := spaces_not_confRec hsp
    simp only [resolveConferenceRecord, hfix, hnc, Bool.false_eq_true, if_false,
      resolveSpaceAndRecord, hsp, if_true, listRecordsStep]
    cases env.listConferenceRecords raw <;> simp

/-- Claim C4 witness: instantiation of `C4_space_fetch` at the bare code
`abc` (erroring lookup) and the space name `spaces/x`. -/
theorem C4_witness :
    resolveConferenceRecord meetEnvA "abc".toList =
      (none, [MeetCall.getSpace "spaces/abc".toList]) ∧
    resolveConferenceRecord meetEnvA "spaces/x".toList =
      (none, [MeetCall.listRecords "spaces/x".toList]) := by
  constructor
  · exact (C4_space_fetch meetEnvA).1 "abc".toList (by decide) (by decide) (by decide)
      (by decide)
  · exact (C4_space_fetch meetEnvA).2 "spaces/x".toList (by decide) (by decide)

/-- Claim C5:: once resolution reaches the record-listing step (here: a
clean `spaces/`-prefixed input), an empty conference-record list yields
the not-found outcome `none`, and a non-empty list yields the name of
its first record, as returned by the capability. -/
theorem C5_record_listing (env : MeetEnv) (raw : List Char)
    (hfix : pyStrip (pyLstripSlash raw) = raw)
    (hsp : spacesTag.isPrefixOf raw = true) :
    (env.listConferenceRecords raw = [] →
      resolveConferenceRecord env raw = (none, [MeetCall.listRecords raw])) ∧
    (∀ r rs, env.listConferenceRecords raw = r :: rs →
      resolveConferenceRecord env raw = (some r.name, [MeetCall.listRecords raw])) := by
  have hnc := spaces_not_confRec hsp
  constructor
  · intro hempty
    simp only [resolveConferenceRecord, hfix, hnc, Bool.false_eq_true, if_false,
      resolveSpaceAndRecord, hsp, if_true, listRecordsStep, hempty, List.nil_append]
  · intro r rs hcons
    simp only [resolveConferenceRecord, hfix, hnc, Bool.false_eq_true, if_false,
      resolveSpaceAndRecord, hsp, if_true, listRecordsStep, hcons, List.nil_append]

/-- Claim C5 witness: instantiation of `C5_record_listing` at a space with
records `[R1, R2]` (the first, `R1`, is returned) and at a space with no
records (not-found). -/
theorem C5_witness :
    resolveConferenceRecord meetEnvC5 "spaces/withrecs".toList =
      (some "conferenceRecords/R1".toList,
       [MeetCall.listRecords "spaces/withrecs".toList]) ∧
    resolveConferenceRecord meetEnvC5 "spaces/empty".toList =
      (none, [MeetCall.listRecords "spaces/empty".toList]) := by
  constructor
  · exact (C5_record_listing meetEnvC5 "spaces/withrecs".toList (by decide) (by decide)).2
      ⟨"conferenceRecords/R1".toList⟩ [⟨"conferenceRecords/R2".toList⟩] (by decide)
  · exact (C5_record_listing meetEnvC5 "spaces/empty".toList (by decide) (by decide)).1
      (by decide)

theorem routeLoop_eq_filterMap (execRes : AgentCard → Option (List Char))
    (text : List Char) (dismissed : List (List Char)) (agents : List AgentCard) :
    routeLoop execRes text dismissed agents =
      (agents.filter fun card =>
          !intentDismissed card dismissed && matchesTriggers text card.triggers).filterMap
        (fun card =>
          match execRes card with
          | some r => if r.isEmpty then none else some r
          | none => none) := by
  induction agents with
  | nil => rfl
  | cons card rest ih =>
    cases hd : intentDismissed card dismissed with
    | true => simp [routeLoop, hd, List.filter_cons, ih]
    | false =>
      cases hm : matchesTriggers text card.triggers with
      | false => simp [routeLoop, hd, hm, List.filter_cons, ih]
      | true =>
        cases he : execRes card with
        | none =>
          simp [routeLoop, hd, hm, he, List.filter_cons, List.filterMap_cons, ih]
        | some r =>
          by_cases hr : r = []
          · simp [routeLoop, hd, hm, he, hr, List.filter_cons, List.filterMap_cons, ih]
          · simp [routeLoop, hd, hm, he, hr, List.filter_cons, List.filterMap_cons, ih]

/-- Claim C2 counterexample: on the text `calendar` the Calendar card is
not dismissed and its triggers match, yet with its execution function
returning `None` the router returns the canned message — not the
(empty) concatenation of the non-empty results. -/
theorem C2_counterexample :
    intentDismissed calendarCard [] = false ∧
    matchesTriggers "calendar".toList calendarCard.triggers = true ∧
    planAndExecute (fun _ => none) "calendar".toList [] = cannedNoToolMsg ∧
    cannedNoToolMsg ≠ ([] : List Char) := by
  exact ⟨by decide, by decide, by decide, by decide⟩

/-- Claim C2 (amended): `plan_and_execute` iterates the registered cards in
registration order (Calendar, Gmail, Meet, Classroom), skips every card
whose intent id is in `dismissed_intents`, invokes each remaining card
whose triggers match, and returns the concatenation, in registration
order, of the non-empty results when there is at least one; when no card
produces a non-empty result (in particular when no card matches), the
canned no-specialized-tool message is returned. -/
theorem C2_router_fanout (execRes : AgentCard → Option (List Char))
    (text : List Char) (dismissed : List (List Char)) :
    planAndExecute execRes text dismissed =
      (if (routeSpecResults execRes text dismissed).isEmpty then cannedNoToolMsg
       else (routeSpecResults execRes text dismissed).flatten) := by
  unfold planAndExecute routeSpecResults
  rw [routeLoop_eq_filterMap]

/-- Claim C3:: a card fires iff some of its trigger phrases occurs as a
whole word (case-insensitive, anywhere in the text), for any trigger
phrase that is non-empty and starts and ends with a word character (as
every registered trigger does); in particular `meeting tomorrow` does
not fire a card whose only trigger is `meet` but does fire the Calendar
card, which lists `meeting`. -/
theorem C3_trigger_matching (triggers : List (List Char)) (s : List Char)
    (h : ∀ t ∈ triggers, t ≠ [] ∧ wordChar (t.headD ' ') = true ∧
      wordChar (t.getLastD ' ') = true) :
    (matchesTriggers s triggers = true ↔ ∃ t ∈ triggers, containsWholeWord t s) ∧
    matchesTriggers "meeting tomorrow".toList ["meet".toList] = false ∧
    matchesTriggers "meeting tomorrow".toList calendarCard.triggers = true := by
  refine ⟨?_, by decide, by decide⟩
  unfold matchesTriggers
  rw [List.any_eq_true]
  constructor
  · rintro ⟨t, ht, hw⟩
    obtain ⟨h0, hh, hl⟩ := h t ht
    exact ⟨t, ht, (wwSearch_iff_whole t s h0 hh hl).mp hw⟩
  · rintro ⟨t, ht, hw⟩
    obtain ⟨h0, hh, hl⟩ := h t ht
    exact ⟨t, ht, (wwSearch_iff_whole t s h0 hh hl).mpr hw⟩

/-- Claim C3 witness: instantiation of `C3_trigger_matching` at the
singleton trigger list `["meeting"]` and the text `meeting tomorrow`. -/
theorem C3_witness :
    (matchesTriggers "meeting tomorrow".toList ["meeting".toList] = true ↔
      ∃ t ∈ ["meeting".toList], containsWholeWord t "meeting tomorrow".toList) ∧
    matchesTriggers "meeting tomorrow".toList ["meet".toList] = false ∧
    matchesTriggers "meeting tomorrow".toList calendarCard.triggers = true :=
  C3_trigger_matching ["meeting".toList] "meeting tomorrow".toList (by decide)

theorem updateTaskStatus_found {store : List AgentTask} {taskId : List Char}
    (hmem : ∃ t ∈ store, t.id = taskId) (status : List Char) (pu : Option (List Char)) :
    getStatus (updateTaskStatus store taskId status pu).1 taskId = some status ∧
    (updateTaskStatus store taskId status pu).2 = [Ev.setStatus taskId status] := by
  induction store with
  | nil => simp at hmem
  | cons t rest ih =>
    by_cases hid : t.id = taskId
    · simp [updateTaskStatus, hid, getStatus, findTask, List.find?]
    · obtain ⟨u, hu, huid⟩ := hmem
      have hur : u ∈ rest := by
        rcases List.mem_cons.mp hu with h | h
        · exact absurd (h ▸ huid) hid
        · exact h
      have := ih ⟨u, hur, huid⟩
      simp [updateTaskStatus, hid, getStatus, findTask, List.find?] at this ⊢
      exact this

theorem updateTaskStatus_events_shape (store : List AgentTask) (taskId status : List Char)
    (pu : Option (List Char)) :
    (updateTaskStatus store taskId status pu).2 = [] ∨
    (updateTaskStatus store taskId status pu).2 = [Ev.setStatus taskId status] := by
  induction store with
  | nil => left; rfl
  | cons t rest ih =>
    by_cases hid : t.id = taskId
    · right; simp [updateTaskStatus, hid]
    · simpa [updateTaskStatus, hid] using ih

theorem calendarBranch_raised {env : ExecEnv} {store : List AgentTask} {taskId : List Char}
    {st : List AgentTask} {tr : List Ev}
    (h : calendarBranch env store taskId = BranchOut.raised st tr) :
    st = store ∧ tr = [Ev.calendarAction] := by
  unfold calendarBranch at h
  repeat (first | split at h | simp_all)

theorem gmailBranch_raised {env : ExecEnv} {store : List AgentTask} {taskId t : List Char}
    {a b : Bool} {ru : List Char} {st : List AgentTask} {tr : List Ev}
    (h : gmailBranch env store taskId t a b ru = BranchOut.raised st tr) :
    st = store ∧ tr = [Ev.gmailAction] := by
  unfold gmailBranch at h
  repeat (first | split at h | simp_all)

theorem calendarBranch_flow {env : ExecEnv} {store : List AgentTask} {taskId : List Char}
    {st : List AgentTask} {tr : List Ev} {ru : List Char}
    (h : calendarBranch env store taskId = BranchOut.flow st tr ru) :
    st = store ∧ tr = [Ev.calendarAction] := by
  unfold calendarBranch at h
  repeat (first | split at h | simp_all)

theorem gmailBranch_flow {env : ExecEnv} {store : List AgentTask} {taskId t : List Char}
    {a b : Bool} {ru : List Char} {st : List AgentTask} {tr : List Ev} {ru2 : List Char}
    (h : gmailBranch env store taskId t a b ru = BranchOut.flow st tr ru2) :
    st = store ∧ tr = [Ev.gmailAction] := by
  unfold gmailBranch at h
  repeat (first | split at h | simp_all)

theorem updateTaskStatus_no_marker (store : List AgentTask) (taskId status : List Char)
    (pu : Option (List Char)) :
    Ev.calendarAction ∉ (updateTaskStatus store taskId status pu).2 ∧
    Ev.gmailAction ∉ (updateTaskStatus store taskId status pu).2 := by
  rcases updateTaskStatus_events_shape store taskId status pu with h | h <;> simp [h]

theorem calendarBranch_paused {env : ExecEnv} {store : List AgentTask} {taskId : List Char}
    {st : List AgentTask} {tr : List Ev}
    (h : calendarBranch env store taskId = BranchOut.paused st tr) :
    tr = [Ev.calendarAction, Ev.setStatus taskId sWaiting] ∨
    tr = Ev.calendarAction :: (updateTaskStatus store taskId sWaiting none).2 := by
  unfold calendarBranch at h
  repeat (first | split at h | simp_all)

theorem gmailBranch_paused {env : ExecEnv} {store : List AgentTask} {taskId t : List Char}
    {a b : Bool} {ru : List Char} {st : List AgentTask} {tr : List Ev}
    (h : gmailBranch env store taskId t a b ru = BranchOut.paused st tr) :
    st = (updateTaskStatus store taskId sWaiting none).1 ∧
    tr = Ev.gmailAction :: (updateTaskStatus store taskId sWaiting none).2 := by
  unfold gmailBranch at h
  repeat (first | split at h | simp_all)

theorem calendarBranch_mem_cal (env : ExecEnv) (store : List AgentTask) (taskId : List Char) :
    Ev.calendarAction ∈ (calendarBranch env store taskId).trace := by
  cases hb : calendarBranch env store taskId with
  | raised s tr => simp [BranchOut.trace, (calendarBranch_raised hb).2]
  | paused s tr => rcases calendarBranch_paused hb with h | h <;> simp [BranchOut.trace, h]
  | flow s tr ru => simp [BranchOut.trace, (calendarBranch_flow hb).2]

theorem gmailBranch_no_cal (env : ExecEnv) (store : List AgentTask) (taskId t : List Char)
    (a b : Bool) (ru : List Char) :
    Ev.calendarAction ∉ (gmailBranch env store taskId t a b ru).trace := by
  cases hb : gmailBranch env store taskId t a b ru with
  | raised s tr => simp [BranchOut.trace, (gmailBranch_raised hb).2]
  | paused s tr =>
    have h := (gmailBranch_paused hb).2
    have hm := (updateTaskStatus_no_marker store taskId sWaiting none).1
    simp only [BranchOut.trace, h, List.mem_cons, not_or]
    exact ⟨by simp, hm⟩
  | flow s tr ru2 => simp [BranchOut.trace, (gmailBranch_flow hb).2]

/-- Claim C8:: an exception raised during routing/action dispatch is caught
at the execute boundary and the task is left unresolved: whenever the
run ends in the `except` branch, the stored task still has status
`executing` (it is not marked `completed`, and no failed state exists). -/
theorem C8_exception_leaves_executing (env : ExecEnv) (store : List AgentTask)
    (taskId taskText : List Char) (req : Bool)
    (hmem : ∃ t ∈ store, t.id = taskId) :
    (executeTaskLogic env store taskId taskText req).caught = true →
    getStatus (executeTaskLogic env store taskId taskText req).store taskId =
      some sExecuting := by
  have hupd := updateTaskStatus_found hmem sExecuting none
  simp only [executeTaskLogic]
  split
  · intro hc
    simp at hc
  · split
    case _ st tr heq =>
      intro _
      split at heq
      · have hst := (calendarBranch_raised heq).1
        simp only [hst]
        exact hupd.1
      · simp at heq
    case _ st tr heq =>
      intro hc
      simp at hc
    case _ st2 tr2 ru heq2 =>
      have hst2 : st2 = (updateTaskStatus store taskId sExecuting none).1 := by
        split at heq2
        · exact (calendarBranch_flow heq2).1
        · exact (BranchOut.flow.injEq _ _ _ _ _ _).mp heq2 |>.1.symm
      split
      case _ st tr heq3 =>
        intro _
        split at heq3
        · have hst := (gmailBranch_raised heq3).1
          simp only [hst, hst2]
          exact hupd.1
        · simp at heq3
      case _ st tr heq3 =>
        intro hc
        simp at hc
      case _ st3 tr3 ru3 heq3 =>
        intro hc
        simp at hc

/-- Claim C10:: in the direct execution path, once past the initial
connectivity gate, the calendar action runs if and only if one of the
fixed trigger strings occurs as a plain substring of the lowercased
text; concretely, `remarkable` enters the calendar branch (via `mark`)
and the gmail branch fires on substrings such as `when` and `from`
inside the longer words `whenever` and `fromage`. -/
theorem C10_substring_dispatch (env : ExecEnv) (store : List AgentTask)
    (taskId taskText : List Char) (req : Bool)
    (hgate : (req && !env.probeGate) = false) :
    (Ev.calendarAction ∈ (executeTaskLogic env store taskId taskText req).trace ↔
      anyContains (pyLower taskText) mainCalendarTriggers = true) ∧
    Ev.calendarAction ∈ (executeTaskLogic execEnvOffGmail [taskPlain] taskPlain.id
      "remarkable".toList false).trace ∧
    Ev.gmailAction ∈ (executeTaskLogic execEnvOffGmail [taskPlain] taskPlain.id
      "whenever".toList false).trace ∧
    Ev.gmailAction ∈ (executeTaskLogic execEnvOffGmail [taskPlain] taskPlain.id
      "fromage".toList false).trace := by
  refine ⟨?_, by decide, by decide, by decide⟩
  have hr1 := (updateTaskStatus_no_marker store taskId sExecuting none).1
  simp only [executeTaskLogic, hgate, Bool.false_eq_true, if_false]
  split
  case _ st tr heq =>
    split at heq
    case _ hcond =>
      have h := calendarBranch_raised heq
      simp [h.2, hcond]
    case _ hcond => simp at heq
  case _ st tr heq =>
    split at heq
    case _ hcond =>
      rcases calendarBranch_paused heq with h | h <;> simp [h, hcond]
    case _ hcond => simp at heq
  case _ st2 tr2 ru heq2 =>
    split at heq2
    case _ hcond =>
      have h2 := calendarBranch_flow heq2
      split <;> simp [h2.2, hcond]
    case _ hcond =>
      have h2 := (BranchOut.flow.injEq _ _ _ _ _ _).mp heq2
      have htr2 : tr2 = [] := h2.2.1.symm
      simp only [Bool.not_eq_true] at hcond
      split
      case _ st tr heq3 =>
        split at heq3
        · have h3 := gmailBranch_raised heq3
          simp [h3.2, htr2, hcond, hr1]
        · simp at heq3
      case _ st tr heq3 =>
        split at heq3
        · have h3 := (gmailBranch_paused heq3).2
          have hw := (updateTaskStatus_no_marker st2 taskId sWaiting none).1
          simp [h3, htr2, hcond, hr1, hw]
        · simp at heq3
      case _ st3 tr3 ru3 heq3 =>
        have htr3 : Ev.calendarAction ∉ tr3 := by
          split at heq3
          · have h3 := gmailBranch_flow heq3
            simp [h3.2]
          · have h3 := (BranchOut.flow.injEq _ _ _ _ _ _).mp heq3
            simp [← h3.2.1]
        have hcomp := (updateTaskStatus_no_marker
          (match findTask st3 taskId with
           | some t0 => saveTask st3 { t0 with plan := t0.plan ++ ru3 }
           | none => st3) taskId sCompleted none).1
        simp [htr2, hcond, hr1, htr3, hcomp]

/-- Claim C8 witness: instantiation of `C8_exception_leaves_executing` at
an environment whose calendar capability raises. -/
theorem C8_witness :
    (executeTaskLogic execEnvRaise [taskPlain] taskPlain.id "calendar event".toList
        false).caught = true ∧
    getStatus (executeTaskLogic execEnvRaise [taskPlain] taskPlain.id
        "calendar event".toList false).store taskPlain.id = some sExecuting :=
  ⟨by decide, C8_exception_leaves_executing execEnvRaise [taskPlain] taskPlain.id
    "calendar event".toList false (by decide) (by decide)⟩

/-- Claim C10 witness: instantiation of `C10_substring_dispatch` at a
concrete offline-gmail environment and the text `remarkable` (whose only
calendar trigger hit is the substring `mark`). -/
theorem C10_witness :
    (Ev.calendarAction ∈ (executeTaskLogic execEnvOffGmail [taskPlain] taskPlain.id
        "remarkable".toList false).trace ↔
      anyContains (pyLower "remarkable".toList) mainCalendarTriggers = true) ∧
    Ev.calendarAction ∈ (executeTaskLogic execEnvOffGmail [taskPlain] taskPlain.id
      "remarkable".toList false).trace ∧
    Ev.gmailAction ∈ (executeTaskLogic execEnvOffGmail [taskPlain] taskPlain.id
      "whenever".toList false).trace ∧
    Ev.gmailAction ∈ (executeTaskLogic execEnvOffGmail [taskPlain] taskPlain.id
      "fromage".toList false).trace :=
  C10_substring_dispatch execEnvOffGmail [taskPlain] taskPlain.id "remarkable".toList
    false (by decide)

/-- Claim C6 (failing-input evaluation): a stored task with
`requires_internet = false` whose text `check email from Bob` enters the
gmail section while the gmail connectivity probe reports offline is
parked in `waiting_for_internet` with `requires_internet` still `false`
— the code violates the claimed invariant. -/
theorem C6_offline_gmail_parks_nonet_task :
    (executeTaskLogic execEnvOffGmail [taskGmailOffline] taskGmailOffline.id
        taskGmailOffline.originalRequest taskGmailOffline.requiresInternet).store =
      [{ taskGmailOffline with status := sWaiting }] ∧
    taskGmailOffline.requiresInternet = false ∧
    ({ taskGmailOffline with status := sWaiting }).requiresInternet = false := by
  exact ⟨by decide, by decide, by decide⟩

/-- Claim C7 counterexample: `update_task_status` with a plan argument
*replaces* the plan rather than appending: updating the task `a` (plan
`hello`) to `completed` with plan text `x` leaves plan `x`, of which the
previous plan `hello` is not a prefix. -/
theorem C7_counterexample :
    (updateTaskStatus [taskPlain] "a".toList sCompleted (some "x".toList)).1 =
      [{ taskPlain with status := sCompleted, plan := "x".toList }] ∧
    "hello".toList.isPrefixOf "x".toList = false := by
  exact ⟨by decide, by decide⟩

/-- Claim C7 (amended): `update_task_status` with a truthy plan argument
transitions the status of the first matching task and *replaces* its
plan with the given text; plan text is therefore not append-only across
operations that take a plan argument. -/
theorem C7_updateStatus_replaces (store : List AgentTask) (taskId status p : List Char)
    (hp : p ≠ []) :
    findTask (updateTaskStatus store taskId status (some p)).1 taskId =
      (findTask store taskId).map fun t => { t with status := status, plan := p } := by
  induction store with
  | nil => rfl
  | cons t rest ih =>
    by_cases hid : t.id = taskId
    · simp [updateTaskStatus, hid, findTask, List.find?, pyTruthyStr, hp]
    · simp only [updateTaskStatus, hid, if_false, findTask, List.find?]
      have hbeq : (t.id == taskId) = false := by
        rw [beq_eq_false_iff_ne]
        exact hid
      simp only [hbeq]
      exact ih

/-- Claim C7 witness: instantiation of `C7_updateStatus_replaces` at the
stored task `a`. -/
theorem C7_witness :
    findTask (updateTaskStatus [taskPlain] "a".toList sCompleted (some "x".toList)).1
        "a".toList =
      (findTask [taskPlain] "a".toList).map
        (fun t => { t with status := sCompleted, plan := "x".toList }) :=
  C7_updateStatus_replaces [taskPlain] "a".toList sCompleted "x".toList (by decide)

/-- Claim C9:: a stored task submitted with `requiresInternet = true` while
the connectivity probe reports offline is parked by the submission path:
exactly one status write happens, to `waiting_for_internet` — never
`executing` or `completed`. -/
theorem C9_offline_submission_parks (env : ExecEnv) (store : List AgentTask)
    (taskId taskText : List Char)
    (hmem : ∃ t ∈ store, t.id = taskId) :
    (backgroundTaskSimulation false env store taskId true taskText).trace =
      [Ev.setStatus taskId sWaiting] ∧
    getStatus (backgroundTaskSimulation false env store taskId true taskText).store
      taskId = some sWaiting := by
  have h := updateTaskStatus_found hmem sWaiting none
  simp only [backgroundTaskSimulation, Bool.not_false, Bool.and_true, if_true]
  exact ⟨h.2, h.1⟩

/-- Claim C9 witness: instantiation of `C9_offline_submission_parks` at a
concrete internet-requiring task. -/
theorem C9_witness :
    (backgroundTaskSimulation false execEnvOffGmail [taskNeedsNet] taskNeedsNet.id true
        taskNeedsNet.originalRequest).trace = [Ev.setStatus taskNeedsNet.id sWaiting] ∧
    getStatus (backgroundTaskSimulation false execEnvOffGmail [taskNeedsNet]
        taskNeedsNet.id true taskNeedsNet.originalRequest).store taskNeedsNet.id =
      some sWaiting :=
  C9_offline_submission_parks execEnvOffGmail [taskNeedsNet] taskNeedsNet.id
    taskNeedsNet.originalRequest (by decide)
